import Mathlib

/-
Verification of the pokemon dashboard core (src/streamlit_app.py) against its
specification.  The Python module is shallowly embedded: JSON values become an
inductive `Json` type, Python subscripting (`payload["key"]`) becomes
`Json.getItem` returning `Except PyError`, the `Pokemon` dataclass becomes a
structure of `Json` fields (Python is dynamically typed, so fields are stored
verbatim), and network plus JSON decoding are oracle parameters.  Functions
that issue HTTP GETs also return the list of URLs they requested, so that
"performs no GET" and "performs exactly one GET" are provable statements.
-/

namespace PokeDash

/-- JSON values as decoded by `json.loads`: null, booleans, integers, strings,
arrays and objects (ordered key/value lists, as Python dicts preserve
insertion order). -/
inductive Json where
  | null : Json
  | bool : Bool → Json
  | int : Int → Json
  | str : String → Json
  | arr : List Json → Json
  | obj : List (String × Json) → Json

mutual

/-- Structural equality of JSON values. -/
def Json.beq : Json → Json → Bool
  | .null, .null => true
  | .bool a, .bool b => a == b
  | .int a, .int b => a == b
  | .str a, .str b => a == b
  | .arr a, .arr b => Json.beqList a b
  | .obj a, .obj b => Json.beqFields a b
  | _, _ => false

/-- Structural equality of JSON arrays. -/
def Json.beqList : List Json → List Json → Bool
  | [], [] => true
  | x :: xs, y :: ys => Json.beq x y && Json.beqList xs ys
  | _, _ => false

/-- Structural equality of JSON object field lists. -/
def Json.beqFields : List (String × Json) → List (String × Json) → Bool
  | [], [] => true
  | x :: xs, y :: ys => x.1 == y.1 && Json.beq x.2 y.2 && Json.beqFields xs ys
  | _, _ => false

end

instance : BEq Json := ⟨Json.beq⟩

/-- Python exceptions that the embedded code can raise: `KeyError` from a
missing dict key, `TypeError` from subscripting or iterating a value of the
wrong type, and the request-library errors (invalid URL, transport failure). -/
inductive PyError where
  | keyError (key : String) : PyError
  | typeError (msg : String) : PyError
  | requestError (msg : String) : PyError
  | decodeError (msg : String) : PyError
  deriving DecidableEq

/-- Python subscripting `value[key]` with a string key: succeeds on a dict
that has the key, raises `KeyError` on a dict without it, and raises
`TypeError` on any non-dict value. -/
def Json.getItem : Json → String → Except PyError Json
  | .obj fields, key =>
      match fields.lookup key with
      | some v => .ok v
      | none => .error (.keyError key)
  | _, _ => .error (.typeError "object is not subscriptable")

/-- Python iteration `for x in value`: lists yield their elements, dicts
yield their keys, strings yield their characters, everything else raises
`TypeError`. -/
def pyIter : Json → Except PyError (List Json)
  | .arr items => .ok items
  | .obj fields => .ok (fields.map (fun f => Json.str f.1))
  | .str sv => .ok (sv.data.map (fun c => Json.str (String.mk [c])))
  | _ => .error (.typeError "object is not iterable")

/-- The `Pokemon` dataclass of src/streamlit_app.py.  Python does not enforce
the annotated field types, so each field stores the extracted JSON value
verbatim. -/
structure Pokemon where
  name : Json
  base_experience : Json
  sprite_front_default : Json
  sprite_back_default : Json
  stats : Json

/-- Embedding of `Pokemon.from_dict`: subscript accesses in Python evaluation
order (`payload["name"]`, `payload["base_experience"]`,
`payload["sprites"]["front_default"]`, `payload["sprites"]["back_default"]`,
`payload["stats"]`), the first raised exception propagating. -/
def Pokemon.from_dict (payload : Json) : Except PyError Pokemon :=
  match payload.getItem "name" with
  | .error e => .error e
  | .ok nameV =>
    match payload.getItem "base_experience" with
    | .error e => .error e
    | .ok beV =>
      match payload.getItem "sprites" with
      | .error e => .error e
      | .ok spritesV =>
        match spritesV.getItem "front_default" with
        | .error e => .error e
        | .ok frontV =>
          match payload.getItem "sprites" with
          | .error e => .error e
          | .ok spritesW =>
            match spritesW.getItem "back_default" with
            | .error e => .error e
            | .ok backV =>
              match payload.getItem "stats" with
              | .error e => .error e
              | .ok statsV =>
                .ok ⟨nameV, beV, frontV, backV, statsV⟩

/-- Python dict insertion semantics for `d[k] = v` inside a comprehension:
an existing key keeps its position and gets the new value, a new key is
appended at the end. -/
def pyDictInsert (d : List (Json × Json)) (k v : Json) : List (Json × Json) :=
  if d.any (fun entry => entry.1 == k) then
    d.map (fun entry => if entry.1 == k then (entry.1, v) else entry)
  else
    d ++ [(k, v)]

/-- One step of the dict comprehension in `stats_series`: evaluates
`stat["stat"]["name"]` then `stat["base_stat"]` and inserts the pair. -/
def statsStep (d : List (Json × Json)) (stat : Json) : Except PyError (List (Json × Json)) :=
  match stat.getItem "stat" with
  | .error e => .error e
  | .ok statObj =>
    match statObj.getItem "name" with
    | .error e => .error e
    | .ok keyV =>
      match stat.getItem "base_stat" with
      | .error e => .error e
      | .ok valV => .ok (pyDictInsert d keyV valV)

/-- The dict comprehension loop of `stats_series`, left to right over the
iterated stats, the first raised exception propagating. -/
def statsFoldM (d : List (Json × Json)) : List Json → Except PyError (List (Json × Json))
  | [] => .ok d
  | stat :: rest =>
    match statsStep d stat with
    | .error e => .error e
    | .ok d2 => statsFoldM d2 rest

/-- Embedding of the `Pokemon.stats_series` property:
`{stat["stat"]["name"]: stat["base_stat"] for stat in self.stats}` wrapped in
`pd.Series`, which preserves the dict's insertion order (modelled as the
ordered key/value list itself). -/
def Pokemon.stats_series (p : Pokemon) : Except PyError (List (Json × Json)) :=
  match pyIter p.stats with
  | .error e => .error e
  | .ok items => statsFoldM [] items

/-- Embedding of `requests.get(url)` for the sprite URLs: the network is an
oracle from URL strings to response bytes.  The second component is the list
of URLs actually requested.  A non-string URL (in particular `None`) makes
the request library raise before any network traffic, so the request list is
empty in that case. -/
def requests_get (net : String → Except PyError (List Nat)) (url : Json) :
    Except PyError (List Nat) × List String :=
  match url with
  | .str u => (net u, [u])
  | _ => (.error (.requestError "Invalid URL: No scheme supplied"), [])

/-- Embedding of the `front_image` property: `requests.get` on the stored
front sprite URL, the body wrapped as an in-memory byte buffer. -/
def Pokemon.front_image (net : String → Except PyError (List Nat)) (p : Pokemon) :
    Except PyError (List Nat) × List String :=
  requests_get net p.sprite_front_default

/-- Embedding of the `back_image` property: `requests.get` on the stored
back sprite URL, the body wrapped as an in-memory byte buffer. -/
def Pokemon.back_image (net : String → Except PyError (List Nat)) (p : Pokemon) :
    Except PyError (List Nat) × List String :=
  requests_get net p.sprite_back_default

/-- The URL built by `load_pokemon`'s f-string. -/
def pokemonUrl (pokemon_name : String) : String :=
  "https://pokeapi.co/api/v2/pokemon/" ++ pokemon_name ++ "/"

/-- Embedding of `load_pokemon`: one GET against the interpolated URL, then
`json.loads` on the response text.  `net` is the transport oracle and
`json_loads` the JSON decoder oracle; the second component lists the URLs
requested. -/
def load_pokemon (net : String → Except PyError String)
    (json_loads : String → Except PyError Json) (pokemon_name : String) :
    Except PyError Json × List String :=
  let poke_url := pokemonUrl pokemon_name
  (match net poke_url with
   | .error e => .error e
   | .ok bodyText => json_loads bodyText, [poke_url])

/-- The hardcoded listing URL of `load_all_pokemons`. -/
def listUrl : String := "https://pokeapi.co/api/v2/pokemon?limit=100000&offset=0"

/-- The list comprehension `[pokemon["name"] for pokemon in entries]`,
left to right, the first raised exception propagating. -/
def namesOf : List Json → Except PyError (List Json)
  | [] => .ok []
  | entry :: rest =>
    match entry.getItem "name" with
    | .error e => .error e
    | .ok nameV =>
      match namesOf rest with
      | .error e => .error e
      | .ok names => .ok (nameV :: names)

/-- Extraction step of `load_all_pokemons`: subscript `resp_to_json["results"]`,
iterate it, and take each entry's `"name"` field in order. -/
def extractNames (j : Json) : Except PyError (List Json) :=
  match j.getItem "results" with
  | .error e => .error e
  | .ok results =>
    match pyIter results with
    | .error e => .error e
    | .ok entries => namesOf entries

/-- Embedding of `load_all_pokemons`: one GET against the fixed listing URL
(limit 100000, offset 0), `json.loads`, then the name extraction.  The
`st.cache` decorator is the presentation layer's memoization and is outside
this core. -/
def load_all_pokemons (net : String → Except PyError String)
    (json_loads : String → Except PyError Json) :
    Except PyError (List Json) × List String :=
  (match net listUrl with
   | .error e => .error e
   | .ok bodyText =>
     match json_loads bodyText with
     | .error e => .error e
     | .ok j => extractNames j, [listUrl])

/-- The three read accessors of the View-Model. -/
inductive Accessor where
  | frontImage : Accessor
  | backImage : Accessor
  | statsSeries : Accessor

/-- Value returned by one accessor call. -/
inductive AccValue where
  | image (r : Except PyError (List Nat) × List String) : AccValue
  | series (r : Except PyError (List (Json × Json))) : AccValue

/-- One accessor call on an instance: the accessor bodies only read fields
(the Python methods contain no assignment to `self`), so the call returns the
produced value together with the instance the continuation sees. -/
def applyAccessor (net : String → Except PyError (List Nat)) :
    Accessor → Pokemon → AccValue × Pokemon
  | .frontImage, p => (.image (Pokemon.front_image net p), p)
  | .backImage, p => (.image (Pokemon.back_image net p), p)
  | .statsSeries, p => (.series p.stats_series, p)

/-- The instance resulting from a sequence of accessor calls. -/
def runAccessors (net : String → Except PyError (List Nat))
    (calls : List Accessor) (p : Pokemon) : Pokemon :=
  calls.foldl (fun q a => (applyAccessor net a q).2) p

/-- A well-formed statistics entry of the wire protocol:
`{stat: {name: nm}, base_stat: v}`. -/
def mkStat (nm : String) (v : Int) : Json :=
  .obj [("stat", .obj [("name", .str nm)]), ("base_stat", .int v)]

/-- A well-formed `stats` array built from name/value pairs. -/
def mkStats (pairs : List (String × Int)) : Json :=
  .arr (pairs.map (fun pr => mkStat pr.1 pr.2))

/-- Name/value pairs rendered as the ordered JSON mapping that
`stats_series` is expected to produce. -/
def viewOf (pairs : List (String × Int)) : List (Json × Json) :=
  pairs.map (fun pr => (Json.str pr.1, Json.int pr.2))

/-- String-level model of one Python dict insertion, used to reason about
the comprehension: existing key keeps its position and takes the new value,
new key is appended. -/
def strInsert (d : List (String × Int)) (k : String) (v : Int) : List (String × Int) :=
  if d.any (fun entry => entry.1 == k) then
    d.map (fun entry => if entry.1 == k then (entry.1, v) else entry)
  else
    d ++ [(k, v)]

/-- String-level model of the whole comprehension over name/value pairs. -/
def strFold (d : List (String × Int)) (pairs : List (String × Int)) : List (String × Int) :=
  pairs.foldl (fun acc pr => strInsert acc pr.1 pr.2) d

/-- Keys of a string-level dict, in order. -/
def keysOf (d : List (String × Int)) : List String :=
  d.map Prod.fst

/-- The statistics pairs of the spec's fixed mocked record. -/
def specStats : List (String × Int) := [("hp", 45), ("attack", 49)]

/-- The spec's fixed mocked record for bulbasaur. -/
def specRecord : Json :=
  .obj [("name", .str "bulbasaur"), ("base_experience", .int 64),
        ("sprites", .obj [("front_default", .str "url-f"), ("back_default", .str "url-b")]),
        ("stats", mkStats specStats)]

/-- The View-Model extracted from `specRecord`. -/
def specPokemon : Pokemon :=
  ⟨.str "bulbasaur", .int 64, .str "url-f", .str "url-b", mkStats specStats⟩

/-- Statistics pairs with a duplicated stat name. -/
def dupStats : List (String × Int) := [("hp", 45), ("hp", 49)]

/-- A record that is well-formed for the wire protocol but repeats the stat
name "hp" in its stats sequence. -/
def dupRecord : Json :=
  .obj [("name", .str "dupmon"), ("base_experience", .int 7),
        ("sprites", .obj [("front_default", .str "url-f"), ("back_default", .str "url-b")]),
        ("stats", mkStats dupStats)]

/-- The View-Model extracted from `dupRecord`. -/
def dupPokemon : Pokemon :=
  ⟨.str "dupmon", .int 7, .str "url-f", .str "url-b", mkStats dupStats⟩

/-- A View-Model instance whose sprite URLs are both null. -/
def nullSpritePokemon : Pokemon :=
  ⟨.str "missingno", .int 0, .null, .null, .arr []⟩

/-- A record with all five required keys present and both sprite URLs null. -/
def nullSpriteRecord : Json :=
  .obj [("name", .str "missingno"), ("base_experience", .int 0),
        ("sprites", .obj [("front_default", .null), ("back_default", .null)]),
        ("stats", .arr [])]

/-- A network oracle that answers every request with an empty body. -/
def emptyNet : String → Except PyError (List Nat) := fun _ => .ok []

/-- A transport oracle that answers every request with a fixed body text. -/
def constText : String → Except PyError String := fun _ => .ok "body"

/-- A decoder oracle that decodes everything to an empty object. -/
def constDecode : String → Except PyError Json := fun _ => .ok (.obj [])

/-- A decoder oracle producing the two-name listing used by the spec's
mocked `fetch_all_names` scenario. -/
def listingDecode : String → Except PyError Json := fun _ =>
  .ok (.obj [("results", .arr [.obj [("name", .str "bulbasaur")],
                               .obj [("name", .str "ivysaur")]])])

/-- Equality of string-constructor JSON values is string equality. -/
@[simp]
theorem beq_str_str (a b : String) : (Json.str a == Json.str b) = (a == b) := rfl

/-- The dict-membership test of `strInsert` decides membership in `keysOf`. -/
theorem any_key_iff (d : List (String × Int)) (k : String) :
    (d.any (fun entry => entry.1 == k)) = true ↔ k ∈ keysOf d := by
  simp only [List.any_eq_true, beq_iff_eq, keysOf, List.mem_map]

/-- Every accessor returns the instance unchanged. -/
theorem applyAccessor_snd (net : String → Except PyError (List Nat))
    (a : Accessor) (p : Pokemon) : (applyAccessor net a p).2 = p := by
  cases a <;> rfl

/-- C7: stats_view is pure and idempotent: it is a function of the instance
alone (the embedding takes no network oracle, mirroring the absence of I/O in
the Python body), and any two calls on instances with the same stored stats
sequence, in particular two calls on the same instance, return equal ordered
mappings. -/
theorem c7_stats_view_pure (p q : Pokemon) (h : p.stats = q.stats) :
    p.stats_series = q.stats_series := by
  simp [Pokemon.stats_series, h]

/-- Witness for C7 at two concrete instances sharing only the stats field. -/
theorem c7_stats_view_pure_witness :
    Pokemon.stats_series specPokemon =
      Pokemon.stats_series ⟨.str "other", .int 99, .null, .null, mkStats specStats⟩ :=
  c7_stats_view_pure specPokemon ⟨.str "other", .int 99, .null, .null, mkStats specStats⟩ rfl

/-- C8: no accessor call (front_image, back_image or stats_view) modifies any
stored field: after any sequence of accessor calls the instance equals the
constructed one (the Python method bodies contain no assignment). -/
theorem c8_accessors_frame (net : String → Except PyError (List Nat))
    (calls : List Accessor) (p : Pokemon) : runAccessors net calls p = p := by
  induction calls generalizing p with
  | nil => rfl
  | cons a rest ih =>
    show List.foldl _ _ (a :: rest) = p
    rw [List.foldl_cons, applyAccessor_snd]
    exact ih p

/-- C4: on the spec's fixed mocked record, construction succeeds, the name is
"bulbasaur", and the statistics view is exactly hp 45 then attack 49. -/
theorem c4_mocked_record :
    Pokemon.from_dict specRecord = .ok specPokemon ∧
    specPokemon.name = .str "bulbasaur" ∧
    specPokemon.stats_series = .ok [(Json.str "hp", Json.int 45), (Json.str "attack", Json.int 49)] :=
  ⟨rfl, rfl, rfl⟩

/-- C2 counterexample: on a View-Model whose front and back sprite URLs are
null, both image accessors raise a request error (there is no defined "no
image" result in the code), so the claimed non-error result is not returned. -/
theorem c2_counterexample :
    Pokemon.front_image emptyNet nullSpritePokemon =
      (.error (.requestError "Invalid URL: No scheme supplied"), []) ∧
    Pokemon.back_image emptyNet nullSpritePokemon =
      (.error (.requestError "Invalid URL: No scheme supplied"), []) :=
  ⟨rfl, rfl⟩

/-- C2 amended: for every View-Model whose stored front sprite URL is null,
front_image raises an invalid-URL request error without issuing any HTTP GET
(the request list is empty for every network oracle), rather than returning a
"no image" result; the same holds for back_image with a null back sprite URL. -/
theorem c2_null_sprite_raises (net : String → Except PyError (List Nat))
    (p q : Pokemon) (hf : p.sprite_front_default = Json.null)
    (hb : q.sprite_back_default = Json.null) :
    Pokemon.front_image net p =
      (.error (.requestError "Invalid URL: No scheme supplied"), []) ∧
    Pokemon.back_image net q =
      (.error (.requestError "Invalid URL: No scheme supplied"), []) := by
  constructor
  · simp [Pokemon.front_image, requests_get, hf]
  · simp [Pokemon.back_image, requests_get, hb]

/-- Witness for C2 amended at a concrete instance and oracle. -/
theorem c2_null_sprite_raises_witness :
    Pokemon.front_image emptyNet ⟨.str "w", .int 1, .null, .str "url-b", .arr []⟩ =
      (.error (.requestError "Invalid URL: No scheme supplied"), []) ∧
    Pokemon.back_image emptyNet ⟨.str "w", .int 1, .str "url-f", .null, .arr []⟩ =
      (.error (.requestError "Invalid URL: No scheme supplied"), []) :=
  c2_null_sprite_raises emptyNet
    ⟨.str "w", .int 1, .null, .str "url-b", .arr []⟩
    ⟨.str "w", .int 1, .str "url-f", .null, .arr []⟩ rfl rfl

/-- C5: load_pokemon issues exactly one GET, against the URL obtained by
interpolating the name into /pokemon/{name}/ under the versioned base; on
transport success it returns exactly what the JSON decoder returns for the
response body (decoded mapping unchanged, no schema validation, decode errors
untranslated), and a transport error propagates unchanged. -/
theorem c5_load_pokemon_contract (net : String → Except PyError String)
    (json_loads : String → Except PyError Json) (pokemon_name : String) :
    pokemonUrl pokemon_name = "https://pokeapi.co/api/v2/pokemon/" ++ pokemon_name ++ "/" ∧
    (load_pokemon net json_loads pokemon_name).2 = [pokemonUrl pokemon_name] ∧
    (∀ e, net (pokemonUrl pokemon_name) = .error e →
      (load_pokemon net json_loads pokemon_name).1 = .error e) ∧
    (∀ bodyText, net (pokemonUrl pokemon_name) = .ok bodyText →
      (load_pokemon net json_loads pokemon_name).1 = json_loads bodyText) := by
  refine ⟨rfl, rfl, ?_, ?_⟩
  · intro e he
    simp [load_pokemon, he]
  · intro bodyText ht
    simp [load_pokemon, ht]

/-- Witness for C5 at a concrete transport, decoder and name. -/
theorem c5_load_pokemon_contract_witness :
    (load_pokemon constText constDecode "bulbasaur").1 = constDecode "body" ∧
    (load_pokemon constText constDecode "bulbasaur").2 = [pokemonUrl "bulbasaur"] :=
  ⟨(c5_load_pokemon_contract constText constDecode "bulbasaur").2.2.2 "body" rfl,
   (c5_load_pokemon_contract constText constDecode "bulbasaur").2.1⟩

/-- The name comprehension of load_all_pokemons succeeds elementwise. -/
theorem namesOf_of_forall2 {entries names : List Json}
    (h : List.Forall₂ (fun entry nmJ => entry.getItem "name" = .ok nmJ) entries names) :
    namesOf entries = .ok names := by
  induction h with
  | nil => rfl
  | @cons a b l1 l2 h1 h2 ih => simp [namesOf, h1, ih]

/-- C3: an input mapping lacking any of the keys name, base_experience,
sprites.front_default, sprites.back_default or stats (with sprites, when
present, itself a mapping) makes from_record fail with a missing-field
(KeyError) result, so no View-Model is returned; in particular a record
missing stats never yields a View-Model with an empty statistics view. -/
theorem c3_missing_key_fails (fields : List (String × Json))
    (hsp : ∀ s, fields.lookup "sprites" = some s → ∃ sfields, s = Json.obj sfields)
    (hmiss : fields.lookup "name" = none ∨ fields.lookup "base_experience" = none ∨
      fields.lookup "sprites" = none ∨
      (∃ sfields, fields.lookup "sprites" = some (.obj sfields) ∧
        (sfields.lookup "front_default" = none ∨ sfields.lookup "back_default" = none)) ∨
      fields.lookup "stats" = none) :
    ∃ key, Pokemon.from_dict (.obj fields) = .error (.keyError key) := by
  cases hn : fields.lookup "name" with
  | none => exact ⟨"name", by simp [Pokemon.from_dict, Json.getItem, hn]⟩
  | some nmJ =>
  cases hbe : fields.lookup "base_experience" with
  | none => exact ⟨"base_experience", by simp [Pokemon.from_dict, Json.getItem, hn, hbe]⟩
  | some beJ =>
  cases hs : fields.lookup "sprites" with
  | none => exact ⟨"sprites", by simp [Pokemon.from_dict, Json.getItem, hn, hbe, hs]⟩
  | some s =>
  obtain ⟨sfields, rfl⟩ := hsp s hs
  cases hf : sfields.lookup "front_default" with
  | none => exact ⟨"front_default", by simp [Pokemon.from_dict, Json.getItem, hn, hbe, hs, hf]⟩
  | some frontJ =>
  cases hbk : sfields.lookup "back_default" with
  | none =>
    exact ⟨"back_default", by simp [Pokemon.from_dict, Json.getItem, hn, hbe, hs, hf, hbk]⟩
  | some backJ =>
  cases hst : fields.lookup "stats" with
  | none =>
    exact ⟨"stats", by simp [Pokemon.from_dict, Json.getItem, hn, hbe, hs, hf, hbk, hst]⟩
  | some statsV =>
  rcases hmiss with h | h | h | ⟨sf2, heq, hdis⟩ | h
  · simp [hn] at h
  · simp [hbe] at h
  · simp [hs] at h
  · have h4 : sfields = sf2 := Json.obj.inj (Option.some.inj (hs.symm.trans heq))
    rcases hdis with hd | hd
    · rw [← h4] at hd
      simp [hf] at hd
    · rw [← h4] at hd
      simp [hbk] at hd
  · simp [hst] at h

/-- Witness for C3 at a concrete mapping missing only the stats key. -/
theorem c3_missing_key_fails_witness :
    ∃ key, Pokemon.from_dict (.obj
      [("name", .str "missingno"), ("base_experience", .int 0),
       ("sprites", .obj [("front_default", .null), ("back_default", .null)])]) =
      .error (.keyError key) :=
  c3_missing_key_fails
    [("name", .str "missingno"), ("base_experience", .int 0),
     ("sprites", .obj [("front_default", .null), ("back_default", .null)])]
    (fun _s h => ⟨[("front_default", Json.null), ("back_default", Json.null)],
      (Option.some.inj h).symm⟩)
    (Or.inr (Or.inr (Or.inr (Or.inr rfl))))

/-- C6: load_all_pokemons issues one GET against the listing endpoint with
the fixed limit 100000 and offset 0, and on a well-formed decoded response
returns exactly the name field of each entry of the results sequence, in the
same order with no deduplication, reordering, insertion or omission. -/
theorem c6_load_all_contract (net : String → Except PyError String)
    (json_loads : String → Except PyError Json) :
    (load_all_pokemons net json_loads).2 =
      ["https://pokeapi.co/api/v2/pokemon?limit=100000&offset=0"] ∧
    (∀ bodyText j entries names,
      net listUrl = .ok bodyText →
      json_loads bodyText = .ok j →
      j.getItem "results" = .ok (.arr entries) →
      List.Forall₂ (fun entry nmJ => entry.getItem "name" = .ok nmJ) entries names →
      (load_all_pokemons net json_loads).1 = .ok names) := by
  refine ⟨rfl, ?_⟩
  intro bodyText j entries names hnet hjl hres hf
  simp [load_all_pokemons, extractNames, pyIter, hnet, hjl, hres, namesOf_of_forall2 hf]

/-- Witness for C6 at the spec's mocked two-name listing. -/
theorem c6_load_all_contract_witness :
    (load_all_pokemons constText listingDecode).1 = .ok [.str "bulbasaur", .str "ivysaur"] ∧
    (load_all_pokemons constText listingDecode).2 =
      ["https://pokeapi.co/api/v2/pokemon?limit=100000&offset=0"] :=
  ⟨(c6_load_all_contract constText listingDecode).2 "body"
      (.obj [("results", .arr [.obj [("name", .str "bulbasaur")],
                               .obj [("name", .str "ivysaur")]])])
      [.obj [("name", .str "bulbasaur")], .obj [("name", .str "ivysaur")]]
      [.str "bulbasaur", .str "ivysaur"] rfl rfl rfl
      (List.Forall₂.cons rfl (List.Forall₂.cons rfl List.Forall₂.nil)),
   (c6_load_all_contract constText listingDecode).1⟩

/-- C10: from_record succeeds whenever the five expected keys are present,
storing the sprite values verbatim even when they are null; the failure from
a null sprite URL arises only when the corresponding image accessor is
called, with no GET issued there. -/
theorem c10_null_sprites_deferred (fields sfields : List (String × Json))
    (nmJ beJ frontJ backJ statsV : Json)
    (h1 : fields.lookup "name" = some nmJ)
    (h2 : fields.lookup "base_experience" = some beJ)
    (h3 : fields.lookup "sprites" = some (.obj sfields))
    (h4 : sfields.lookup "front_default" = some frontJ)
    (h5 : sfields.lookup "back_default" = some backJ)
    (h6 : fields.lookup "stats" = some statsV) :
    Pokemon.from_dict (.obj fields) = .ok ⟨nmJ, beJ, frontJ, backJ, statsV⟩ ∧
    (frontJ = Json.null → ∀ net,
      Pokemon.front_image net ⟨nmJ, beJ, frontJ, backJ, statsV⟩ =
        (.error (.requestError "Invalid URL: No scheme supplied"), [])) ∧
    (backJ = Json.null → ∀ net,
      Pokemon.back_image net ⟨nmJ, beJ, frontJ, backJ, statsV⟩ =
        (.error (.requestError "Invalid URL: No scheme supplied"), [])) := by
  refine ⟨?_, ?_, ?_⟩
  · simp [Pokemon.from_dict, Json.getItem, h1, h2, h3, h4, h5, h6]
  · rintro rfl net
    simp [Pokemon.front_image, requests_get]
  · rintro rfl net
    simp [Pokemon.back_image, requests_get]

/-- Witness for C10 at the concrete record with both sprite URLs null. -/
theorem c10_null_sprites_deferred_witness :
    Pokemon.from_dict nullSpriteRecord = .ok ⟨.str "missingno", .int 0, .null, .null, .arr []⟩ ∧
    Pokemon.front_image emptyNet ⟨.str "missingno", .int 0, .null, .null, .arr []⟩ =
      (.error (.requestError "Invalid URL: No scheme supplied"), []) := by
  have h := c10_null_sprites_deferred
    [("name", .str "missingno"), ("base_experience", .int 0),
     ("sprites", .obj [("front_default", .null), ("back_default", .null)]),
     ("stats", .arr [])]
    [("front_default", Json.null), ("back_default", Json.null)]
    (.str "missingno") (.int 0) .null .null (.arr []) rfl rfl rfl rfl rfl rfl
  exact ⟨h.1, h.2.1 rfl emptyNet⟩

/-- Unfolding lemma: viewOf on nil. -/
theorem viewOf_nil : viewOf [] = [] := rfl

/-- Unfolding lemma: viewOf on cons. -/
theorem viewOf_cons (e : String × Int) (rest : List (String × Int)) :
    viewOf (e :: rest) = (Json.str e.1, Json.int e.2) :: viewOf rest := rfl

/-- Unfolding lemma: strFold on nil. -/
theorem strFold_nil (d : List (String × Int)) : strFold d [] = d := rfl

/-- Unfolding lemma: strFold on cons. -/
theorem strFold_cons (d : List (String × Int)) (pr : String × Int)
    (rest : List (String × Int)) :
    strFold d (pr :: rest) = strFold (strInsert d pr.1 pr.2) rest := rfl

/-- Unfolding lemma: strFold on cons, with the pair's components exposed. -/
theorem strFold_cons2 (d : List (String × Int)) (k : String) (v : Int)
    (rest : List (String × Int)) :
    strFold d ((k, v) :: rest) = strFold (strInsert d k v) rest := rfl

/-- Folding the comprehension over a split list. -/
theorem strFold_append (d xs ys : List (String × Int)) :
    strFold d (xs ++ ys) = strFold (strFold d xs) ys :=
  List.foldl_append _ _ _ _

/-- List.any after mapping, for maps that change the element type. -/
theorem any_map_poly {α β : Type} (f : α → β) (p : β → Bool) (l : List α) :
    (l.map f).any p = l.any (p ∘ f) := by
  induction l with
  | nil => rfl
  | cons x xs ih => simp [ih]

/-- Python dict insertion on lifted pairs agrees with the string-level model. -/
theorem pyDictInsert_viewOf (d : List (String × Int)) (k : String) (v : Int) :
    pyDictInsert (viewOf d) (Json.str k) (Json.int v) = viewOf (strInsert d k v) := by
  unfold pyDictInsert strInsert viewOf
  rw [any_map_poly]
  have hc : ((fun (entry : Json × Json) => entry.1 == Json.str k) ∘
      (fun pr : String × Int => ((Json.str pr.1 : Json), (Json.int pr.2 : Json)))) =
      (fun entry : String × Int => entry.1 == k) := rfl
  rw [hc]
  by_cases h : (d.any fun entry => entry.1 == k) = true
  · rw [if_pos h, if_pos h, List.map_map, List.map_map]
    have hfun : ((fun (entry : Json × Json) =>
          if entry.1 == Json.str k then (entry.1, Json.int v) else entry) ∘
        (fun pr : String × Int => ((Json.str pr.1 : Json), (Json.int pr.2 : Json)))) =
        ((fun pr : String × Int => ((Json.str pr.1 : Json), (Json.int pr.2 : Json))) ∘
        (fun entry : String × Int => if entry.1 == k then (entry.1, v) else entry)) := by
      funext pr
      by_cases hpr : (pr.1 == k) = true <;> simp [Function.comp, hpr]
    rw [hfun]
  · rw [if_neg h, if_neg h, List.map_append]
    rfl

/-- The comprehension body on lifted pairs agrees with the string-level fold. -/
theorem statsFoldM_viewOf (pairs : List (String × Int)) :
    ∀ d, statsFoldM (viewOf d) (pairs.map (fun pr => mkStat pr.1 pr.2)) =
      .ok (viewOf (strFold d pairs)) := by
  induction pairs with
  | nil => intro d; simp [statsFoldM, strFold]
  | cons pr rest ih =>
    intro d
    have hstep : statsStep (viewOf d) (mkStat pr.1 pr.2) =
        .ok (pyDictInsert (viewOf d) (Json.str pr.1) (Json.int pr.2)) := rfl
    rw [List.map_cons]
    simp only [statsFoldM, hstep, pyDictInsert_viewOf]
    exact ih (strInsert d pr.1 pr.2)

/-- Reduction of stats_series on a well-formed stats array. -/
theorem stats_series_mkStats (p : Pokemon) (pairs : List (String × Int))
    (h : p.stats = mkStats pairs) :
    p.stats_series = .ok (viewOf (strFold [] pairs)) := by
  unfold Pokemon.stats_series
  rw [h]
  have hit : pyIter (mkStats pairs) = .ok (pairs.map (fun pr => mkStat pr.1 pr.2)) := rfl
  rw [hit]
  exact statsFoldM_viewOf pairs []

/-- Keys after a string-level insertion. -/
theorem keysOf_strInsert (d : List (String × Int)) (k : String) (v : Int) :
    keysOf (strInsert d k v) = if k ∈ keysOf d then keysOf d else keysOf d ++ [k] := by
  unfold strInsert
  by_cases h : k ∈ keysOf d
  · rw [if_pos ((any_key_iff d k).2 h), if_pos h]
    unfold keysOf
    rw [List.map_map]
    have hfun : (Prod.fst ∘ (fun entry : String × Int =>
        if entry.1 == k then (entry.1, v) else entry)) = Prod.fst := by
      funext pr
      by_cases hpr : (pr.1 == k) = true <;> simp [Function.comp, hpr]
    rw [hfun]
  · have hb : ¬((d.any fun entry => entry.1 == k) = true) :=
      fun hc => h ((any_key_iff d k).1 hc)
    rw [if_neg hb, if_neg h]
    unfold keysOf
    rw [List.map_append]
    rfl

/-- The inserted key is among the keys afterwards. -/
theorem mem_keysOf_strInsert_self (d : List (String × Int)) (k : String) (v : Int) :
    k ∈ keysOf (strInsert d k v) := by
  by_cases h : k ∈ keysOf d <;> simp [keysOf_strInsert, h]

/-- Insertion never removes a key. -/
theorem mem_keysOf_strInsert_mono (d : List (String × Int)) (k : String) (v : Int)
    (a : String) (ha : a ∈ keysOf d) : a ∈ keysOf (strInsert d k v) := by
  by_cases h : k ∈ keysOf d <;> simp [keysOf_strInsert, h, ha]

/-- The fold never removes a key. -/
theorem mem_keysOf_strFold_mono (pairs : List (String × Int)) :
    ∀ d a, a ∈ keysOf d → a ∈ keysOf (strFold d pairs) := by
  induction pairs with
  | nil => intro d a h; exact h
  | cons pr rest ih =>
    intro d a h
    rw [strFold_cons]
    exact ih _ a (mem_keysOf_strInsert_mono _ _ _ _ h)

/-- Every processed pair's key appears among the fold's keys. -/
theorem mem_keysOf_strFold_of_pair (pairs : List (String × Int)) :
    ∀ d k v, (k, v) ∈ pairs → k ∈ keysOf (strFold d pairs) := by
  induction pairs with
  | nil => intro d k v h; cases h
  | cons pr rest ih =>
    intro d k v h
    rw [strFold_cons]
    rcases List.mem_cons.1 h with h1 | h2
    · subst h1
      exact mem_keysOf_strFold_mono rest _ k (mem_keysOf_strInsert_self d k v)
    · exact ih _ k v h2

/-- The fold keeps the keys duplicate-free. -/
theorem keysOf_strFold_nodup (pairs : List (String × Int)) :
    ∀ d, (keysOf d).Nodup → (keysOf (strFold d pairs)).Nodup := by
  induction pairs with
  | nil => intro d h; exact h
  | cons pr rest ih =>
    intro d h
    rw [strFold_cons]
    apply ih
    by_cases hm : pr.1 ∈ keysOf d
    · rw [keysOf_strInsert, if_pos hm]
      exact h
    · rw [keysOf_strInsert, if_neg hm, List.nodup_append]
      refine ⟨h, List.nodup_singleton _, ?_⟩
      intro a ha hb
      rw [List.mem_singleton] at hb
      exact hm (hb ▸ ha)

/-- Insertion grows the dict by at most one entry. -/
theorem strInsert_length_le (d : List (String × Int)) (k : String) (v : Int) :
    (strInsert d k v).length ≤ d.length + 1 := by
  unfold strInsert
  by_cases h : (d.any fun entry => entry.1 == k) = true
  · rw [if_pos h, List.length_map]
    omega
  · rw [if_neg h, List.length_append]
    simp

/-- Inserting an existing key keeps the dict's size. -/
theorem strInsert_length_of_mem (d : List (String × Int)) (k : String) (v : Int)
    (h : k ∈ keysOf d) : (strInsert d k v).length = d.length := by
  unfold strInsert
  rw [if_pos ((any_key_iff d k).2 h), List.length_map]

/-- The fold grows the dict by at most the number of processed pairs. -/
theorem strFold_length_le (pairs : List (String × Int)) :
    ∀ d, (strFold d pairs).length ≤ d.length + pairs.length := by
  induction pairs with
  | nil => intro d; simp [strFold]
  | cons pr rest ih =>
    intro d
    have h1 := ih (strInsert d pr.1 pr.2)
    have h2 := strInsert_length_le d pr.1 pr.2
    rw [strFold_cons]
    simp only [List.length_cons]
    omega

/-- Updating a present key makes lookup return the new value. -/
theorem lookup_update_of_mem (d : List (String × Int)) (k : String) (v : Int) :
    k ∈ keysOf d →
    List.lookup k (d.map (fun entry => if entry.1 == k then (entry.1, v) else entry)) =
      some v := by
  induction d with
  | nil => intro h; simp [keysOf] at h
  | cons e rest ih =>
    obtain ⟨k1, v1⟩ := e
    intro h
    rw [List.map_cons]
    by_cases he : k1 = k
    · subst he
      rw [if_pos (by simp : (((k1, v1).1 == k1) = true)), List.lookup_cons, beq_self_eq_true]
    · have h2 : k ∈ keysOf rest := by
        have h3 : k ∈ k1 :: keysOf rest := h
        rcases List.mem_cons.1 h3 with h4 | h4
        · exact absurd h4.symm he
        · exact h4
      have hne2 : (k == k1) = false := by simp [Ne.symm he]
      rw [if_neg (by simp [he] : ¬(((k1, v1).1 == k) = true)), List.lookup_cons, hne2]
      exact ih h2

/-- Appending a fresh key makes lookup return its value. -/
theorem lookup_append_single (d : List (String × Int)) (k : String) (v : Int)
    (h : k ∉ keysOf d) : List.lookup k (d ++ [(k, v)]) = some v := by
  induction d with
  | nil => rw [List.nil_append, List.lookup_cons, beq_self_eq_true]
  | cons e rest ih =>
    obtain ⟨k1, v1⟩ := e
    have hne : k ≠ k1 := by
      intro hkk
      exact h (by simp [keysOf, hkk])
    have h2 : k ∉ keysOf rest := by
      intro hk
      exact h (List.mem_cons_of_mem k1 hk)
    have hb : (k == k1) = false := by simp [hne]
    rw [List.cons_append, List.lookup_cons, hb]
    exact ih h2

/-- Lookup of the inserted key returns the inserted value. -/
theorem lookup_strInsert_self (d : List (String × Int)) (k : String) (v : Int) :
    List.lookup k (strInsert d k v) = some v := by
  unfold strInsert
  by_cases h : k ∈ keysOf d
  · rw [if_pos ((any_key_iff d k).2 h)]
    exact lookup_update_of_mem d k v h
  · rw [if_neg (fun hc => h ((any_key_iff d k).1 hc))]
    exact lookup_append_single d k v h

/-- Updating key k does not change lookup of a different key. -/
theorem lookup_update_ne (d : List (String × Int)) (k a : String) (v : Int)
    (hne : a ≠ k) :
    List.lookup a (d.map (fun entry => if entry.1 == k then (entry.1, v) else entry)) =
      List.lookup a d := by
  induction d with
  | nil => rfl
  | cons e rest ih =>
    obtain ⟨k1, v1⟩ := e
    rw [List.map_cons]
    by_cases he : k1 = k
    · subst he
      have hb : (a == k1) = false := by simp [hne]
      rw [if_pos (by simp : (((k1, v1).1 == k1) = true)), List.lookup_cons, hb,
        List.lookup_cons, hb]
      exact ih
    · by_cases ha : a = k1
      · subst ha
        rw [if_neg (by simp [he] : ¬(((a, v1).1 == k) = true)), List.lookup_cons,
          beq_self_eq_true, List.lookup_cons, beq_self_eq_true]
      · have hb2 : (a == k1) = false := by simp [ha]
        rw [if_neg (by simp [he] : ¬(((k1, v1).1 == k) = true)), List.lookup_cons, hb2,
          List.lookup_cons, hb2]
        exact ih

/-- Appending a pair with key k does not change lookup of a different key. -/
theorem lookup_append_single_ne (d : List (String × Int)) (k a : String) (v : Int)
    (hne : a ≠ k) : List.lookup a (d ++ [(k, v)]) = List.lookup a d := by
  induction d with
  | nil =>
    have hb : (a == k) = false := by simp [hne]
    rw [List.nil_append, List.lookup_cons, hb]
  | cons e rest ih =>
    obtain ⟨k1, v1⟩ := e
    rw [List.cons_append, List.lookup_cons, List.lookup_cons]
    by_cases ha : a = k1
    · subst ha
      rw [beq_self_eq_true]
    · have hb : (a == k1) = false := by simp [ha]
      rw [hb]
      exact ih

/-- Insertion of key k does not change lookup of a different key. -/
theorem lookup_strInsert_ne (d : List (String × Int)) (k a : String) (v : Int)
    (hne : a ≠ k) : List.lookup a (strInsert d k v) = List.lookup a d := by
  unfold strInsert
  by_cases h : (d.any fun entry => entry.1 == k) = true
  · rw [if_pos h]
    exact lookup_update_ne d k a v hne
  · rw [if_neg h]
    exact lookup_append_single_ne d k a v hne

/-- Folding pairs whose keys avoid a does not change lookup of a. -/
theorem lookup_strFold_absent (pairs : List (String × Int)) (a : String) :
    (∀ pr ∈ pairs, pr.1 ≠ a) →
    ∀ d, List.lookup a (strFold d pairs) = List.lookup a d := by
  induction pairs with
  | nil => intro _ d; rfl
  | cons pr rest ih =>
    intro h d
    rw [strFold_cons, ih (fun q hq => h q (List.mem_cons_of_mem pr hq)) (strInsert d pr.1 pr.2)]
    exact lookup_strInsert_ne d pr.1 a pr.2 (Ne.symm (h pr (List.mem_cons_self pr rest)))

/-- With pairwise distinct fresh keys the comprehension appends the pairs
in order. -/
theorem strFold_disjoint_nodup (pairs : List (String × Int)) :
    (pairs.map Prod.fst).Nodup →
    ∀ d, (∀ pr ∈ pairs, pr.1 ∉ keysOf d) → strFold d pairs = d ++ pairs := by
  induction pairs with
  | nil => intro _ d _; simp [strFold]
  | cons pr rest ih =>
    intro hnd d hdis
    have hk : pr.1 ∉ keysOf d := hdis pr (List.mem_cons_self pr rest)
    have hins : strInsert d pr.1 pr.2 = d ++ [pr] := by
      unfold strInsert
      rw [if_neg (fun hc => hk ((any_key_iff d pr.1).1 hc))]
    have hnd1 : (pr.1 :: rest.map Prod.fst).Nodup := by
      rw [List.map_cons] at hnd
      exact hnd
    have hhead : pr.1 ∉ rest.map Prod.fst := (List.nodup_cons.1 hnd1).1
    have hnd2 : (rest.map Prod.fst).Nodup := (List.nodup_cons.1 hnd1).2
    have hdis2 : ∀ q ∈ rest, q.1 ∉ keysOf (d ++ [pr]) := by
      intro q hq hmem
      have h1 : q.1 ∉ keysOf d := hdis q (List.mem_cons_of_mem pr hq)
      have h2 : q.1 ≠ pr.1 := fun he => hhead (he ▸ List.mem_map_of_mem Prod.fst hq)
      have hmem2 : q.1 ∈ keysOf d ++ [pr.1] := by
        have : keysOf (d ++ [pr]) = keysOf d ++ [pr.1] := by
          unfold keysOf
          rw [List.map_append]
          rfl
        exact this ▸ hmem
      rcases List.mem_append.1 hmem2 with hm | hm
      · exact h1 hm
      · exact h2 (List.mem_singleton.1 hm)
    rw [strFold_cons, hins, ih hnd2 (d ++ [pr]) hdis2]
    simp

/-- Lookup in the lifted mapping mirrors string-level lookup. -/
theorem lookup_viewOf (strD : List (String × Int)) (a : String) :
    List.lookup (Json.str a) (viewOf strD) = (List.lookup a strD).map Json.int := by
  induction strD with
  | nil => rfl
  | cons e rest ih =>
    obtain ⟨k1, v1⟩ := e
    rw [viewOf_cons]
    by_cases ha : a = k1
    · subst ha
      simp [List.lookup]
    · have hb : (a == k1) = false := by simp [ha]
      have hb2 : (Json.str a == Json.str k1) = false := by
        rw [beq_str_str]
        exact hb
      simp [List.lookup, hb, hb2, ih]

/-- Counting entries with a lifted key mirrors the string-level count. -/
theorem countP_viewOf (strD : List (String × Int)) (nm : String) :
    (viewOf strD).countP (fun entry => entry.1 == Json.str nm) =
      strD.countP (fun entry => entry.1 == nm) := by
  unfold viewOf
  rw [List.countP_map]
  rfl

/-- A dict with duplicate-free keys has exactly one entry for a present key. -/
theorem countP_keys_eq_one (strD : List (String × Int)) (nm : String) :
    (keysOf strD).Nodup → nm ∈ keysOf strD →
    strD.countP (fun entry => entry.1 == nm) = 1 := by
  induction strD with
  | nil => intro _ hmem; simp [keysOf] at hmem
  | cons e rest ih =>
    obtain ⟨k1, v1⟩ := e
    intro hnd hmem
    have hnd1 : (k1 :: keysOf rest).Nodup := hnd
    have hhead : k1 ∉ keysOf rest := (List.nodup_cons.1 hnd1).1
    have hnd2 : (keysOf rest).Nodup := (List.nodup_cons.1 hnd1).2
    rw [List.countP_cons]
    by_cases he : k1 = nm
    · subst he
      have hz : rest.countP (fun entry => entry.1 == k1) = 0 := by
        rw [List.countP_eq_zero]
        intro q hq hb
        rw [beq_iff_eq] at hb
        exact hhead (hb ▸ List.mem_map_of_mem Prod.fst hq)
      simp [hz]
    · have hmem2 : nm ∈ keysOf rest := by
        have h3 : nm ∈ k1 :: keysOf rest := hmem
        rcases List.mem_cons.1 h3 with h4 | h4
        · exact absurd h4.symm he
        · exact h4
      have hb : ((k1, v1).1 == nm) = false := by simp [he]
      simp [hb, ih hnd2 hmem2]

/-- C1 counterexample: dupRecord is well-formed for the wire protocol (all
five keys present, every stats element carrying stat.name and base_stat),
its stats sequence has two elements, yet the statistics view has a single
entry, so stats_view does not contain exactly one entry per element of the
stats sequence. -/
theorem c1_counterexample :
    Pokemon.from_dict dupRecord = .ok dupPokemon ∧
    Pokemon.stats_series dupPokemon = .ok [(Json.str "hp", Json.int 49)] ∧
    [(Json.str "hp", Json.int 49)].length = 1 ∧ dupStats.length = 2 :=
  ⟨rfl, rfl, rfl, rfl⟩

/-- C1 amended: for every well-formed entity record whose stats elements
carry pairwise distinct stat names, from_record succeeds and stats_view
contains exactly one entry per element of the record's stats sequence, with
each entry's name equal to that element's stat.name and its value equal to
that element's base_stat, in the original sequence order. -/
theorem c1_stats_view_distinct (fields sfields : List (String × Json))
    (nmJ beJ frontJ backJ : Json) (pairs : List (String × Int))
    (h1 : fields.lookup "name" = some nmJ)
    (h2 : fields.lookup "base_experience" = some beJ)
    (h3 : fields.lookup "sprites" = some (.obj sfields))
    (h4 : sfields.lookup "front_default" = some frontJ)
    (h5 : sfields.lookup "back_default" = some backJ)
    (h6 : fields.lookup "stats" = some (mkStats pairs))
    (hnd : (pairs.map Prod.fst).Nodup) :
    Pokemon.from_dict (.obj fields) = .ok ⟨nmJ, beJ, frontJ, backJ, mkStats pairs⟩ ∧
    Pokemon.stats_series ⟨nmJ, beJ, frontJ, backJ, mkStats pairs⟩ = .ok (viewOf pairs) := by
  constructor
  · simp [Pokemon.from_dict, Json.getItem, h1, h2, h3, h4, h5, h6]
  · rw [stats_series_mkStats _ pairs rfl,
      strFold_disjoint_nodup pairs hnd [] (by intro q hq; simp [keysOf]),
      List.nil_append]

/-- Witness for C1 amended at the spec's mocked record. -/
theorem c1_stats_view_distinct_witness :
    Pokemon.from_dict specRecord = .ok specPokemon ∧
    Pokemon.stats_series specPokemon = .ok (viewOf specStats) :=
  c1_stats_view_distinct
    [("name", .str "bulbasaur"), ("base_experience", .int 64),
     ("sprites", .obj [("front_default", .str "url-f"), ("back_default", .str "url-b")]),
     ("stats", mkStats specStats)]
    [("front_default", .str "url-f"), ("back_default", .str "url-b")]
    (.str "bulbasaur") (.int 64) (.str "url-f") (.str "url-b") specStats
    rfl rfl rfl rfl rfl rfl (by decide)

/-- C9: when the stored stats sequence contains two entries with the same
stat name (and no later entry reuses it), stats_view has exactly one entry
for that name, carrying the base_stat of the last such entry, and the view
has strictly fewer entries than the stats sequence has elements. -/
theorem c9_duplicate_collapse (p : Pokemon) (l1 l2 l3 : List (String × Int))
    (nm : String) (v1 v2 : Int)
    (hstats : p.stats = mkStats (l1 ++ (nm, v1) :: l2 ++ (nm, v2) :: l3))
    (hl3 : ∀ pr ∈ l3, pr.1 ≠ nm) :
    ∃ d, p.stats_series = .ok d ∧
      List.lookup (Json.str nm) d = some (Json.int v2) ∧
      d.countP (fun entry => entry.1 == Json.str nm) = 1 ∧
      d.length < (l1 ++ (nm, v1) :: l2 ++ (nm, v2) :: l3).length := by
  have hsplit : l1 ++ (nm, v1) :: l2 ++ (nm, v2) :: l3 =
      (l1 ++ (nm, v1) :: l2) ++ ((nm, v2) :: l3) := by
    simp [List.append_assoc]
  refine ⟨viewOf (strFold [] (l1 ++ (nm, v1) :: l2 ++ (nm, v2) :: l3)),
    stats_series_mkStats p _ hstats, ?_, ?_, ?_⟩
  · rw [lookup_viewOf, hsplit, strFold_append, strFold_cons2,
      lookup_strFold_absent l3 nm hl3 _]
    have hself := lookup_strInsert_self (strFold [] (l1 ++ (nm, v1) :: l2)) nm v2
    rw [hself]
    rfl
  · rw [countP_viewOf]
    apply countP_keys_eq_one
    · exact keysOf_strFold_nodup _ [] List.nodup_nil
    · rw [hsplit, strFold_append, strFold_cons2]
      exact mem_keysOf_strFold_mono l3 _ nm
        (mem_keysOf_strInsert_self (strFold [] (l1 ++ (nm, v1) :: l2)) nm v2)
  · have hlen : (viewOf (strFold [] (l1 ++ (nm, v1) :: l2 ++ (nm, v2) :: l3))).length =
        (strFold [] (l1 ++ (nm, v1) :: l2 ++ (nm, v2) :: l3)).length := by
      unfold viewOf
      rw [List.length_map]
    rw [hlen, hsplit, strFold_append, strFold_cons2]
    have hmemB : nm ∈ keysOf (strFold [] (l1 ++ (nm, v1) :: l2)) :=
      mem_keysOf_strFold_of_pair (l1 ++ (nm, v1) :: l2) [] nm v1
        (List.mem_append_right l1 (List.mem_cons_self _ _))
    have hB := strFold_length_le (l1 ++ (nm, v1) :: l2) []
    rw [List.length_nil] at hB
    have hins := strInsert_length_of_mem (strFold [] (l1 ++ (nm, v1) :: l2)) nm v2 hmemB
    have hS := strFold_length_le l3 (strInsert (strFold [] (l1 ++ (nm, v1) :: l2)) nm v2)
    have hlen1 : (l1 ++ (nm, v1) :: l2).length = l1.length + l2.length + 1 := by
      simp only [List.length_append, List.length_cons]
      omega
    have hlen2 : ((l1 ++ (nm, v1) :: l2) ++ ((nm, v2) :: l3)).length =
        l1.length + l2.length + l3.length + 2 := by
      simp only [List.length_append, List.length_cons]
      omega
    omega

/-- Witness for C9 at a concrete instance with a duplicated stat name. -/
theorem c9_duplicate_collapse_witness :
    ∃ d, Pokemon.stats_series dupPokemon = .ok d ∧
      List.lookup (Json.str "hp") d = some (Json.int 49) ∧
      d.countP (fun entry => entry.1 == Json.str "hp") = 1 ∧
      d.length < (([] : List (String × Int)) ++ ("hp", (45 : Int)) ::
        ([] : List (String × Int)) ++ ("hp", (49 : Int)) :: []).length :=
  c9_duplicate_collapse dupPokemon [] [] [] "hp" 45 49 rfl (by intro pr hpr; cases hpr)

end PokeDash
